import Mathlib

/-!
Verification of the pomodoro phase state machine (src/pomodoro.rs and
src/runtime.rs).  The Rust code is shallowly embedded: durations are
natural numbers of abstract time units, the `u8` completion counters are
naturals reduced modulo 256 at each increment (u8 wrap-around), and the
one partial operation of the code — the `v % long_break_interval`
expression in `reached_long_break`, which panics in Rust when the
divisor is zero — is made explicit by returning `Option` (`none` models
the panic).  The asynchronous `run` loop is modelled as a fuel-indexed
loop: `run fuel p = some q` means the loop returns with final state `q`
within `fuel` iterations, and `none` means it did not terminate within
`fuel` iterations (or panicked inside `next_cycle`).
-/

namespace Pomo

/-- Phase of the machine (`Status` in src/pomodoro.rs). -/
inductive Status where
  | Working
  | ShortBreak
  | LongBreak
  deriving DecidableEq, Repr

/-- Per-phase completion counts (`Counter` in src/pomodoro.rs); the Rust
fields are `u8` cells, so each count lives in `[0, 255]`. -/
structure Counter where
  working : Nat
  short_break : Nat
  long_break : Nat
  deriving DecidableEq, Repr

/-- Mirrors `Counter::new`: all three slots start at zero. -/
def Counter.new : Counter :=
  { working := 0, short_break := 0, long_break := 0 }

/-- Mirrors `Counter::increment_working`; `u8` addition wraps modulo 256. -/
def Counter.increment_working (c : Counter) : Counter :=
  { c with working := (c.working + 1) % 256 }

/-- Mirrors `Counter::increment_short_break`. -/
def Counter.increment_short_break (c : Counter) : Counter :=
  { c with short_break := (c.short_break + 1) % 256 }

/-- Mirrors `Counter::increment_long_break`. -/
def Counter.increment_long_break (c : Counter) : Counter :=
  { c with long_break := (c.long_break + 1) % 256 }

/-- Mirrors `Counter::current_working`. -/
def Counter.current_working (c : Counter) : Nat := c.working

/-- Mirrors `Counter::current_short_break`. -/
def Counter.current_short_break (c : Counter) : Nat := c.short_break

/-- Mirrors `Counter::current_long_break`. -/
def Counter.current_long_break (c : Counter) : Nat := c.long_break

/-- Read a counter slot by phase (used only to state theorems). -/
def Counter.get (c : Counter) (s : Status) : Nat :=
  match s with
  | Status.Working => c.working
  | Status.ShortBreak => c.short_break
  | Status.LongBreak => c.long_break

/-- The per-phase clock (`Timer` in src/pomodoro.rs); durations are
abstract time units. -/
structure Timer where
  lifespan : Nat
  tick_range : Nat
  elapsed : Nat
  deriving DecidableEq, Repr

/-- Mirrors `Timer::initial_duration`. -/
def Timer.initial_duration : Nat := 0

/-- Mirrors `Timer::new`: elapsed starts at the initial duration. -/
def Timer.new (lifespan tick_range : Nat) : Timer :=
  { lifespan, tick_range, elapsed := Timer.initial_duration }

/-- Mirrors `Timer::reset`. -/
def Timer.reset (t : Timer) : Timer :=
  { t with elapsed := Timer.initial_duration }

/-- Mirrors `Timer::tick`. -/
def Timer.tick (t : Timer) : Timer :=
  { t with elapsed := t.elapsed + t.tick_range }

/-- Mirrors `Timer::is_done`: `elapsed >= lifespan`. -/
def Timer.is_done (t : Timer) : Bool :=
  decide (t.lifespan ≤ t.elapsed)

/-- Mirrors `Timer::current_elapsed`. -/
def Timer.current_elapsed (t : Timer) : Nat := t.elapsed

/-- The aggregate (`Pomodoro` in src/pomodoro.rs).  The `InnerState`
cells (`current_status`, `paused`) are inlined as plain fields. -/
structure Pomodoro where
  working : Timer
  short_break : Timer
  long_break : Timer
  long_break_interval : Nat
  counter : Counter
  continuous : Bool
  untilCap : Option Nat
  current_status : Status
  paused : Bool
  deriving DecidableEq, Repr

/-- Mirrors `Pomodoro::new`: counter zeroed, current status `Working`,
`paused` starts `true`.  (`untilCap` is the Rust field `until`.) -/
def Pomodoro.new (working short_break long_break : Timer)
    (long_break_interval : Nat) (continuous : Bool) (u : Option Nat) : Pomodoro :=
  { working, short_break, long_break, long_break_interval,
    counter := Counter.new, continuous, untilCap := u,
    current_status := Status.Working, paused := true }

/-- Mirrors `Pomodoro::is_consumed`:
`until.map(|u| current_working() >= u).unwrap_or(false)`. -/
def Pomodoro.is_consumed (p : Pomodoro) : Bool :=
  match p.untilCap with
  | some u => decide (u ≤ p.counter.current_working)
  | none => false

/-- The phase-to-clock mapping (used to state theorems; `current_timer`
in the source is this mapping applied to the current status). -/
def Pomodoro.timer (p : Pomodoro) (s : Status) : Timer :=
  match s with
  | Status.Working => p.working
  | Status.ShortBreak => p.short_break
  | Status.LongBreak => p.long_break

/-- Mirrors `Pomodoro::current_timer`. -/
def Pomodoro.current_timer (p : Pomodoro) : Timer :=
  p.timer p.current_status

/-- Functional update of the clock selected by a phase (models the
in-place mutation of that clock through its shared cell). -/
def Pomodoro.set_timer (p : Pomodoro) (s : Status) (t : Timer) : Pomodoro :=
  match s with
  | Status.Working => { p with working := t }
  | Status.ShortBreak => { p with short_break := t }
  | Status.LongBreak => { p with long_break := t }

/-- Mirrors `Pomodoro::increment_current_status_counter`. -/
def Pomodoro.increment_current_status_counter (p : Pomodoro) : Pomodoro :=
  match p.current_status with
  | Status.Working => { p with counter := p.counter.increment_working }
  | Status.ShortBreak => { p with counter := p.counter.increment_short_break }
  | Status.LongBreak => { p with counter := p.counter.increment_long_break }

/-- Mirrors `Pomodoro::reached_long_break`: `v > 0 && v % interval == 0`
with Rust short-circuit `&&`; when `v > 0` and the interval is zero the
Rust `%` panics, modelled by `none`. -/
def Pomodoro.reached_long_break (p : Pomodoro) : Option Bool :=
  if p.counter.current_working = 0 then some false
  else if p.long_break_interval = 0 then none
  else some (decide (p.counter.current_working % p.long_break_interval = 0))

/-- The fixed cycle of the final `match` in `Pomodoro::next_status`:
Working to ShortBreak, ShortBreak to Working, LongBreak to Working. -/
def cycleSucc : Status → Status
  | Status.Working => Status.ShortBreak
  | Status.ShortBreak => Status.Working
  | Status.LongBreak => Status.Working

/-- Mirrors `Pomodoro::next_status`; `none` propagates the
`reached_long_break` panic. -/
def Pomodoro.next_status (p : Pomodoro) : Option Status :=
  if !p.current_timer.is_done then
    some p.current_status
  else if p.current_status ≠ Status.LongBreak then
    match p.reached_long_break with
    | none => none
    | some true => some Status.LongBreak
    | some false => some (cycleSucc p.current_status)
  else
    some (cycleSucc p.current_status)

/-- Mirrors `Pomodoro::is_active`. -/
def Pomodoro.is_active (p : Pomodoro) : Bool := !p.paused

/-- Mirrors `Pomodoro::resume`. -/
def Pomodoro.resume (p : Pomodoro) : Pomodoro := { p with paused := false }

/-- Mirrors `Pomodoro::pause`. -/
def Pomodoro.pause (p : Pomodoro) : Pomodoro := { p with paused := true }

/-- The `self.current_timer().reset()` step of `next_cycle` as a state
update: resets the clock of the (still current) phase. -/
def Pomodoro.reset_current_timer (p : Pomodoro) : Pomodoro :=
  p.set_timer p.current_status p.current_timer.reset

/-- Mirrors `Pomodoro::next_cycle`: increment the current phase's
counter slot, compute `next_status` on the post-increment state, reset
the clock of the phase being left, then commit the new status. -/
def Pomodoro.next_cycle (p : Pomodoro) : Option Pomodoro :=
  match (p.increment_current_status_counter).next_status with
  | none => none
  | some ns =>
      some { (p.increment_current_status_counter).reset_current_timer with
              current_status := ns }

/-- Mirrors `Pomodoro::proceed`: tick the current phase's clock. -/
def Pomodoro.proceed (p : Pomodoro) : Pomodoro :=
  p.set_timer p.current_status p.current_timer.tick

/-- The body of the `while` loop in `Pomodoro::run`, fuel-indexed.
Each iteration either exits (consumed or inactive), ticks the current
clock, or runs `next_cycle` and pauses when not continuous. -/
def Pomodoro.runLoop : Nat → Pomodoro → Option Pomodoro
  | 0, _ => none
  | fuel + 1, p =>
    if p.is_consumed || !p.is_active then some p
    else if !p.current_timer.is_done then
      Pomodoro.runLoop fuel p.proceed
    else
      match p.next_cycle with
      | none => none
      | some q => Pomodoro.runLoop fuel (if !q.continuous then q.pause else q)

/-- Mirrors `Pomodoro::run`: force-resume, then loop. -/
def Pomodoro.run (fuel : Nat) (p : Pomodoro) : Option Pomodoro :=
  Pomodoro.runLoop fuel p.resume

/-- Control signals of src/runtime.rs (`Signal`). -/
inductive RSignal where
  | Abort
  | Pause
  | Resume
  deriving DecidableEq, Repr

/-- The signal-consuming task of `start` in src/runtime.rs, applied to a
stream of received signals: `Pause` and `Resume` mutate the shared
pause flag, `Abort` returns from the task's own loop.  The result is
the machine state as last mutated together with the signals left
unconsumed when the task returned. -/
def signalTask : List RSignal → Pomodoro → Pomodoro × List RSignal
  | [], p => (p, [])
  | RSignal.Pause :: rest, p => signalTask rest p.pause
  | RSignal.Resume :: rest, p => signalTask rest p.resume
  | RSignal.Abort :: rest, p => (p, rest)

/-- States reachable from a freshly constructed machine by the
operations the two tasks perform: ticking the current clock, a phase
transition on a finished clock, and the pause/resume signals. -/
inductive Reachable : Pomodoro → Prop where
  | base (w sb lb : Timer) (i : Nat) (c : Bool) (u : Option Nat) :
      Reachable (Pomodoro.new w sb lb i c u)
  | tick (p : Pomodoro) : Reachable p → Reachable p.proceed
  | cycle (p q : Pomodoro) : Reachable p → p.current_timer.is_done = true →
      p.next_cycle = some q → Reachable q
  | resume (p : Pomodoro) : Reachable p → Reachable p.resume
  | pause (p : Pomodoro) : Reachable p → Reachable p.pause

/-- The transition rule exactly as the specification words it: stay
while the current clock is not done; else LongBreak when the phase is
not already LongBreak and the Working count is positive and divisible
by the long-break interval; else the fixed cycle successor. -/
def next_status_spec (p : Pomodoro) : Status :=
  if !p.current_timer.is_done then
    p.current_status
  else if p.current_status ≠ Status.LongBreak ∧ 0 < p.counter.working ∧
      p.long_break_interval ∣ p.counter.working then
    Status.LongBreak
  else
    cycleSucc p.current_status

/-! Field-preservation lemmas for the state updates. -/

@[simp] lemma set_timer_long_break_interval (p : Pomodoro) (s : Status) (t : Timer) :
    (p.set_timer s t).long_break_interval = p.long_break_interval := by
  cases s <;> rfl

@[simp] lemma set_timer_counter (p : Pomodoro) (s : Status) (t : Timer) :
    (p.set_timer s t).counter = p.counter := by
  cases s <;> rfl

@[simp] lemma set_timer_continuous (p : Pomodoro) (s : Status) (t : Timer) :
    (p.set_timer s t).continuous = p.continuous := by
  cases s <;> rfl

@[simp] lemma set_timer_untilCap (p : Pomodoro) (s : Status) (t : Timer) :
    (p.set_timer s t).untilCap = p.untilCap := by
  cases s <;> rfl

@[simp] lemma set_timer_current_status (p : Pomodoro) (s : Status) (t : Timer) :
    (p.set_timer s t).current_status = p.current_status := by
  cases s <;> rfl

@[simp] lemma set_timer_paused (p : Pomodoro) (s : Status) (t : Timer) :
    (p.set_timer s t).paused = p.paused := by
  cases s <;> rfl

@[simp] lemma set_timer_timer_self (p : Pomodoro) (s : Status) (t : Timer) :
    (p.set_timer s t).timer s = t := by
  cases s <;> rfl

lemma set_timer_timer_other (p : Pomodoro) (s s' : Status) (t : Timer) (h : s' ≠ s) :
    (p.set_timer s t).timer s' = p.timer s' := by
  cases s <;> cases s' <;> first | rfl | exact absurd rfl h

@[simp] lemma inc_current_status (p : Pomodoro) :
    p.increment_current_status_counter.current_status = p.current_status := by
  unfold Pomodoro.increment_current_status_counter
  cases p.current_status <;> rfl

@[simp] lemma inc_long_break_interval (p : Pomodoro) :
    p.increment_current_status_counter.long_break_interval = p.long_break_interval := by
  unfold Pomodoro.increment_current_status_counter
  cases p.current_status <;> rfl

@[simp] lemma inc_continuous (p : Pomodoro) :
    p.increment_current_status_counter.continuous = p.continuous := by
  unfold Pomodoro.increment_current_status_counter
  cases p.current_status <;> rfl

@[simp] lemma inc_untilCap (p : Pomodoro) :
    p.increment_current_status_counter.untilCap = p.untilCap := by
  unfold Pomodoro.increment_current_status_counter
  cases p.current_status <;> rfl

@[simp] lemma inc_paused (p : Pomodoro) :
    p.increment_current_status_counter.paused = p.paused := by
  unfold Pomodoro.increment_current_status_counter
  cases p.current_status <;> rfl

@[simp] lemma inc_timer (p : Pomodoro) (s : Status) :
    p.increment_current_status_counter.timer s = p.timer s := by
  unfold Pomodoro.increment_current_status_counter
  cases p.current_status <;> cases s <;> rfl

@[simp] lemma inc_current_timer (p : Pomodoro) :
    p.increment_current_status_counter.current_timer = p.current_timer := by
  unfold Pomodoro.current_timer
  rw [inc_current_status, inc_timer]

@[simp] lemma with_status_timer (p : Pomodoro) (ns : Status) (s : Status) :
    ({ p with current_status := ns } : Pomodoro).timer s = p.timer s := by
  cases s <;> rfl

/-! The transition function agrees with the specification's wording
whenever the long-break interval is positive. -/

lemma reached_long_break_of_pos (p : Pomodoro) (h : p.long_break_interval ≠ 0) :
    p.reached_long_break =
      some (decide (0 < p.counter.working ∧
        p.counter.working % p.long_break_interval = 0)) := by
  unfold Pomodoro.reached_long_break Counter.current_working
  by_cases hw : p.counter.working = 0
  · simp [hw]
  · simp [hw, h, Nat.pos_of_ne_zero hw]

lemma next_status_eq_spec (p : Pomodoro) (h : 0 < p.long_break_interval) :
    p.next_status = some (next_status_spec p) := by
  have hi : p.long_break_interval ≠ 0 := Nat.pos_iff_ne_zero.mp h
  unfold Pomodoro.next_status next_status_spec
  rw [reached_long_break_of_pos p hi]
  simp only [Nat.dvd_iff_mod_eq_zero]
  cases hd : p.current_timer.is_done
  · simp
  · by_cases hs : p.current_status = Status.LongBreak
    · simp [hs]
    · by_cases hr : 0 < p.counter.working ∧
          p.counter.working % p.long_break_interval = 0
      · simp [hs, hr]
      · simp [hs, hr]

lemma next_cycle_eq_spec (p : Pomodoro) (h : 0 < p.long_break_interval) :
    p.next_cycle =
      some { (p.increment_current_status_counter).reset_current_timer with
              current_status :=
                next_status_spec p.increment_current_status_counter } := by
  have h1 : 0 < (p.increment_current_status_counter).long_break_interval := by
    rw [inc_long_break_interval]; exact h
  unfold Pomodoro.next_cycle
  rw [next_status_eq_spec _ h1]

/-- Claim C1: `next_status` is a pure function of the current state
(it is modelled as such, mirroring the side-effect-free Rust method)
and, for every state of the machine (whose long-break interval is
positive, as the data model requires), it returns the current phase
when the current phase's clock is not done; otherwise `LongBreak` when
the current phase is not already `LongBreak` and the Working count is
positive and divisible by `long_break_interval`; otherwise the fixed
cycle successor Working to ShortBreak, ShortBreak to Working,
LongBreak to Working. -/
theorem claim_C1_next_status (p : Pomodoro) (h : 0 < p.long_break_interval) :
    p.next_status = some (next_status_spec p) :=
  next_status_eq_spec p h

/-- Witness for claim C1 at the concrete machine of the repository's
`trasition` test. -/
theorem claim_C1_next_status_witness :
    0 < (Pomodoro.new (Timer.new 2 1) (Timer.new 3 1) (Timer.new 4 1)
          2 true (some 3)).long_break_interval ∧
    (Pomodoro.new (Timer.new 2 1) (Timer.new 3 1) (Timer.new 4 1)
          2 true (some 3)).next_status =
      some (next_status_spec
        (Pomodoro.new (Timer.new 2 1) (Timer.new 3 1) (Timer.new 4 1)
          2 true (some 3))) :=
  ⟨by decide, claim_C1_next_status _ (by decide)⟩

/-- Claim C2: `next_cycle` increments the counter slot of the current
phase (so `next_status` is evaluated on the post-increment count),
computes `next_status`, resets the clock of the phase being left (not
the one being entered), and commits the new current phase; the clocks
of the other two phases and the pause flag are unchanged. -/
theorem claim_C2_next_cycle (p : Pomodoro) (h : 0 < p.long_break_interval) :
    ∃ q, p.next_cycle = some q ∧
      (∀ s, q.counter.get s =
        if s = p.current_status then (p.counter.get s + 1) % 256
        else p.counter.get s) ∧
      q.current_status = next_status_spec p.increment_current_status_counter ∧
      q.timer p.current_status = (p.timer p.current_status).reset ∧
      (∀ s, s ≠ p.current_status → q.timer s = p.timer s) ∧
      q.paused = p.paused := by
  refine ⟨_, next_cycle_eq_spec p h, ?_, rfl, ?_, ?_, ?_⟩
  · intro s
    cases hc : p.current_status <;> cases s <;>
      simp [hc, Counter.get, Pomodoro.increment_current_status_counter,
        Counter.increment_working, Counter.increment_short_break,
        Counter.increment_long_break, Pomodoro.reset_current_timer]
  · rw [with_status_timer, Pomodoro.reset_current_timer, inc_current_status,
      set_timer_timer_self, inc_current_timer, Pomodoro.current_timer]
  · intro s hs
    rw [with_status_timer, Pomodoro.reset_current_timer, inc_current_status,
      set_timer_timer_other _ _ _ _ hs, inc_timer]
  · simp [Pomodoro.reset_current_timer]

/-- Witness for claim C2 at the concrete machine of the repository's
`trasition` test. -/
theorem claim_C2_next_cycle_witness :
    0 < (Pomodoro.new (Timer.new 2 1) (Timer.new 3 1) (Timer.new 4 1)
          2 true (some 3)).long_break_interval ∧
    ∃ q, (Pomodoro.new (Timer.new 2 1) (Timer.new 3 1) (Timer.new 4 1)
          2 true (some 3)).next_cycle = some q ∧
      (∀ s, q.counter.get s =
        if s = (Pomodoro.new (Timer.new 2 1) (Timer.new 3 1) (Timer.new 4 1)
          2 true (some 3)).current_status then
          ((Pomodoro.new (Timer.new 2 1) (Timer.new 3 1) (Timer.new 4 1)
            2 true (some 3)).counter.get s + 1) % 256
        else (Pomodoro.new (Timer.new 2 1) (Timer.new 3 1) (Timer.new 4 1)
          2 true (some 3)).counter.get s) ∧
      q.current_status = next_status_spec
        (Pomodoro.new (Timer.new 2 1) (Timer.new 3 1) (Timer.new 4 1)
          2 true (some 3)).increment_current_status_counter ∧
      q.timer (Pomodoro.new (Timer.new 2 1) (Timer.new 3 1) (Timer.new 4 1)
          2 true (some 3)).current_status =
        ((Pomodoro.new (Timer.new 2 1) (Timer.new 3 1) (Timer.new 4 1)
          2 true (some 3)).timer
          (Pomodoro.new (Timer.new 2 1) (Timer.new 3 1) (Timer.new 4 1)
            2 true (some 3)).current_status).reset ∧
      (∀ s, s ≠ (Pomodoro.new (Timer.new 2 1) (Timer.new 3 1) (Timer.new 4 1)
          2 true (some 3)).current_status →
        q.timer s = (Pomodoro.new (Timer.new 2 1) (Timer.new 3 1) (Timer.new 4 1)
          2 true (some 3)).timer s) ∧
      q.paused = (Pomodoro.new (Timer.new 2 1) (Timer.new 3 1) (Timer.new 4 1)
          2 true (some 3)).paused :=
  ⟨by decide, claim_C2_next_cycle _ (by decide)⟩

/-! Reachability invariant behind the long-break policy. -/

/-- When the current phase is ShortBreak, the Working count is not a
positive multiple of the interval: had it been one, the machine would
have entered LongBreak instead of ShortBreak when the Working phase
completed. -/
def LBInv (p : Pomodoro) : Prop :=
  p.current_status = Status.ShortBreak →
    p.counter.working = 0 ∨ p.counter.working % p.long_break_interval ≠ 0

lemma next_cycle_some_elim (p q : Pomodoro) (h : p.next_cycle = some q) :
    ∃ ns, (p.increment_current_status_counter).next_status = some ns ∧
      q = { (p.increment_current_status_counter).reset_current_timer with
            current_status := ns } := by
  unfold Pomodoro.next_cycle at h
  cases hns : (p.increment_current_status_counter).next_status with
  | none => rw [hns] at h; exact absurd h (by simp)
  | some ns =>
      rw [hns] at h
      exact ⟨ns, rfl, (Option.some.inj h).symm⟩

lemma reachable_LBInv (p : Pomodoro) (h : Reachable p) : LBInv p := by
  induction h with
  | base w sb lb i c u =>
      intro hs
      exact absurd hs (by simp [Pomodoro.new])
  | tick p hp ih =>
      intro hs
      simp only [Pomodoro.proceed, set_timer_current_status, set_timer_counter,
        set_timer_long_break_interval] at hs ⊢
      exact ih hs
  | resume p hp ih => exact fun hs => ih hs
  | pause p hp ih => exact fun hs => ih hs
  | cycle p q hp hdone hcyc ih =>
      obtain ⟨ns, hns, rfl⟩ := next_cycle_some_elim p q hcyc
      intro hs
      have hns2 : ns = Status.ShortBreak := hs
      subst hns2
      simp only [Pomodoro.reset_current_timer, set_timer_counter,
        set_timer_long_break_interval, inc_long_break_interval]
      cases hc : p.current_status with
      | Working =>
          simp only [Pomodoro.next_status, inc_current_timer, hdone,
            inc_current_status, hc, Bool.not_true, if_false] at hns
          simp only [ne_eq, reduceCtorEq, not_false_iff, if_true] at hns
          cases hr : (p.increment_current_status_counter).reached_long_break with
          | none => rw [hr] at hns; exact absurd hns (by simp)
          | some b =>
              rw [hr] at hns
              cases b with
              | true => exact absurd hns (by simp)
              | false =>
                  simp only [Pomodoro.reached_long_break, Counter.current_working,
                    inc_long_break_interval] at hr
                  by_cases hw :
                      (p.increment_current_status_counter).counter.working = 0
                  · exact Or.inl hw
                  · rw [if_neg hw] at hr
                    by_cases hz : p.long_break_interval = 0
                    · rw [if_pos hz] at hr; exact absurd hr (by simp)
                    · rw [if_neg hz] at hr
                      refine Or.inr ?_
                      have := Option.some.inj hr
                      simpa using this
      | ShortBreak =>
          simp only [Pomodoro.next_status, inc_current_timer, hdone,
            inc_current_status, hc, Bool.not_true, if_false] at hns
          simp only [ne_eq, reduceCtorEq, not_false_iff, if_true] at hns
          cases hr : (p.increment_current_status_counter).reached_long_break with
          | none => rw [hr] at hns; exact absurd hns (by simp)
          | some b =>
              rw [hr] at hns
              cases b with
              | true => exact absurd hns (by simp [cycleSucc])
              | false => exact absurd hns (by simp [cycleSucc])
      | LongBreak =>
          simp only [Pomodoro.next_status, inc_current_timer, hdone,
            inc_current_status, hc, Bool.not_true, if_false] at hns
          simp only [ne_eq, not_true_eq_false, if_false] at hns
          exact absurd hns (by simp [cycleSucc])

/-- Claim C3: along every run from a fresh machine, `next_status` never
yields LongBreak as the entered phase twice in a row (from a finished
LongBreak it always yields Working), and the transition step enters
LongBreak exactly when the current phase is Working and the Working
counter, just incremented by that completed Working phase (with u8
wrap-around), is a positive multiple of `long_break_interval`. -/
theorem claim_C3_long_break_policy (p : Pomodoro) (hr : Reachable p) :
    (p.current_status = Status.LongBreak → p.current_timer.is_done = true →
      p.next_status = some Status.Working) ∧
    (p.current_timer.is_done = true → ∀ q, p.next_cycle = some q →
      (q.current_status = Status.LongBreak ↔
        p.current_status = Status.Working ∧
          0 < (p.counter.working + 1) % 256 ∧
          (p.counter.working + 1) % 256 % p.long_break_interval = 0)) := by
  constructor
  · intro hlb hdone
    simp [Pomodoro.next_status, hdone, hlb, cycleSucc]
  · intro hdone q hcyc
    obtain ⟨ns, hns, rfl⟩ := next_cycle_some_elim p q hcyc
    show ns = Status.LongBreak ↔ _
    cases hc : p.current_status with
    | Working =>
        have hw1 : (p.increment_current_status_counter).counter.working =
            (p.counter.working + 1) % 256 := by
          simp [Pomodoro.increment_current_status_counter, hc,
            Counter.increment_working]
        simp only [Pomodoro.next_status, inc_current_timer, hdone,
          inc_current_status, hc, Bool.not_true, if_false] at hns
        simp only [ne_eq, reduceCtorEq, not_false_iff, if_true] at hns
        cases hrb : (p.increment_current_status_counter).reached_long_break with
        | none => rw [hrb] at hns; exact absurd hns (by simp)
        | some b =>
            rw [hrb] at hns
            simp only [Pomodoro.reached_long_break, Counter.current_working,
              inc_long_break_interval, hw1] at hrb
            cases b with
            | true =>
                have hns' : ns = Status.LongBreak := (Option.some.inj hns).symm
                subst hns'
                simp only [iff_true_intro rfl, true_iff, true_and]
                by_cases hw : (p.counter.working + 1) % 256 = 0
                · rw [if_pos hw] at hrb; exact absurd hrb (by simp)
                · rw [if_neg hw] at hrb
                  by_cases hz : p.long_break_interval = 0
                  · rw [if_pos hz] at hrb; exact absurd hrb (by simp)
                  · rw [if_neg hz] at hrb
                    have := Option.some.inj hrb
                    exact ⟨Nat.pos_of_ne_zero hw, by simpa using this.symm⟩
            | false =>
                have hns' : ns = cycleSucc Status.Working :=
                  (Option.some.inj hns).symm
                subst hns'
                constructor
                · intro hcontra; exact absurd hcontra (by simp [cycleSucc])
                · rintro ⟨-, hpos, hmod⟩
                  exfalso
                  by_cases hw : (p.counter.working + 1) % 256 = 0
                  · rw [hw] at hpos; exact absurd hpos (by simp)
                  · rw [if_neg hw] at hrb
                    by_cases hz : p.long_break_interval = 0
                    · rw [if_pos hz] at hrb; exact absurd hrb (by simp)
                    · rw [if_neg hz] at hrb
                      have := Option.some.inj hrb
                      simp only [decide_eq_false_iff_not] at this
                      exact this hmod
    | ShortBreak =>
        have hinv := reachable_LBInv p hr hc
        have hw1 : (p.increment_current_status_counter).counter.working =
            p.counter.working := by
          simp [Pomodoro.increment_current_status_counter, hc,
            Counter.increment_short_break]
        simp only [Pomodoro.next_status, inc_current_timer, hdone,
          inc_current_status, hc, Bool.not_true, if_false] at hns
        simp only [ne_eq, reduceCtorEq, not_false_iff, if_true] at hns
        cases hrb : (p.increment_current_status_counter).reached_long_break with
        | none => rw [hrb] at hns; exact absurd hns (by simp)
        | some b =>
            rw [hrb] at hns
            simp only [Pomodoro.reached_long_break, Counter.current_working,
              inc_long_break_interval, hw1] at hrb
            cases b with
            | true =>
                exfalso
                by_cases hw : p.counter.working = 0
                · rw [if_pos hw] at hrb; exact absurd hrb (by simp)
                · rw [if_neg hw] at hrb
                  by_cases hz : p.long_break_interval = 0
                  · rw [if_pos hz] at hrb; exact absurd hrb (by simp)
                  · rw [if_neg hz] at hrb
                    have hmod := Option.some.inj hrb
                    simp only [decide_eq_true_eq] at hmod
                    rcases hinv with h0 | hne
                    · exact hw h0
                    · exact hne hmod
            | false =>
                have hns' : ns = cycleSucc Status.ShortBreak :=
                  (Option.some.inj hns).symm
                subst hns'
                constructor
                · intro hcontra; exact absurd hcontra (by simp [cycleSucc])
                · rintro ⟨hcontra, -, -⟩
                  exact Status.noConfusion hcontra
    | LongBreak =>
        simp only [Pomodoro.next_status, inc_current_timer, hdone,
          inc_current_status, hc, Bool.not_true, if_false] at hns
        simp only [ne_eq, not_true_eq_false, if_false] at hns
        have hns' : ns = cycleSucc Status.LongBreak := (Option.some.inj hns).symm
        subst hns'
        constructor
        · intro hcontra; exact absurd hcontra (by simp [cycleSucc])
        · rintro ⟨hcontra, -, -⟩
          exact Status.noConfusion hcontra

/-- Witness for claim C3: from the fresh machine with interval 2 and a
zero-lifespan Working clock, the first transition enters ShortBreak,
not LongBreak, and the theorem's criterion agrees. -/
theorem claim_C3_long_break_policy_witness :
    (Pomodoro.mk (Timer.mk 0 1 0) (Timer.mk 0 1 0) (Timer.mk 0 1 0) 2
        (Counter.mk 1 0 0) true none Status.ShortBreak true).current_status ≠
      Status.LongBreak := by
  have h := (claim_C3_long_break_policy
      (Pomodoro.new (Timer.new 0 1) (Timer.new 0 1) (Timer.new 0 1) 2 true none)
      (Reachable.base (Timer.new 0 1) (Timer.new 0 1) (Timer.new 0 1)
        2 true none)).2 (by decide)
      (Pomodoro.mk (Timer.mk 0 1 0) (Timer.mk 0 1 0) (Timer.mk 0 1 0) 2
        (Counter.mk 1 0 0) true none Status.ShortBreak true) (by decide)
  intro hc
  exact absurd ((h.mp hc).2.2) (by decide)

/-- Claim C4 (Scenario A): continuous mode, cap 3, interval 2, all
clocks one-tick (lifespan = tick size = 1): `run` terminates (here
within 32 loop iterations) with Working count 3, ShortBreak count 1,
LongBreak count 1, and the machine consumed. -/
theorem claim_C4_scenario_A :
    (Pomodoro.run 32 (Pomodoro.new (Timer.new 1 1) (Timer.new 1 1)
        (Timer.new 1 1) 2 true (some 3))).map
      (fun q => (q.counter.working, q.counter.short_break,
        q.counter.long_break, q.is_consumed)) = some (3, 1, 1, true) := by
  rfl

/-- Claim C5 (Scenario B): step mode (`continuous = false`), no cap,
one-tick clocks: one `run` invocation terminates after exactly one
Working completion and auto-pauses; Working count 1, the break counts
0, and the machine inactive. -/
theorem claim_C5_scenario_B :
    (Pomodoro.run 32 (Pomodoro.new (Timer.new 1 1) (Timer.new 1 1)
        (Timer.new 1 1) 2 false none)).map
      (fun q => (q.counter.working, q.counter.short_break,
        q.counter.long_break, q.is_active)) = some (1, 0, 0, false) := by
  rfl

/-- Claim C7 (code behaviour at the failing input): `Pomodoro::new`
does not reject `long_break_interval = 0` — the constructed machine
carries the zero interval — and once the Working clock is done the very
first transition evaluates `1 % 0` inside `reached_long_break`, the
runtime panic modelled by `none`.  The specification instead requires
the configuration to be rejected at construction time. -/
theorem claim_C7_zero_interval_panics :
    (Pomodoro.new (Timer.new 1 1) (Timer.new 1 1) (Timer.new 1 1)
        0 true none).long_break_interval = 0 ∧
    ((Pomodoro.new (Timer.new 1 1) (Timer.new 1 1) (Timer.new 1 1)
        0 true none).proceed).next_cycle = none := by
  exact ⟨rfl, rfl⟩

/-- Claim C10: with cap `until = Some 0` the loop guard fails at once —
no clock is ticked, no cycle is performed, all counts stay 0 and every
clock keeps its constructed value — yet, the forced resume having
preceded the consumption check, `run` returns with `paused = false`:
the machine is left active although it is consumed. -/
theorem claim_C10_zero_cap (w sb lb : Timer) (i : Nat) (c : Bool)
    (fuel : Nat) (hf : 0 < fuel) :
    ∃ q, Pomodoro.run fuel (Pomodoro.new w sb lb i c (some 0)) = some q ∧
      q.counter.working = 0 ∧ q.counter.short_break = 0 ∧
      q.counter.long_break = 0 ∧
      q.working = w ∧ q.short_break = sb ∧ q.long_break = lb ∧
      q.paused = false ∧ q.is_consumed = true ∧ q.is_active = true := by
  cases fuel with
  | zero => exact absurd hf (by simp)
  | succ n =>
      exact ⟨_, rfl, rfl, rfl, rfl, rfl, rfl, rfl, rfl, rfl, rfl⟩

/-- Witness for claim C10 at a concrete configuration and fuel 1. -/
theorem claim_C10_zero_cap_witness :
    ∃ q, Pomodoro.run 1 (Pomodoro.new (Timer.new 1 1) (Timer.new 1 1)
        (Timer.new 1 1) 2 true (some 0)) = some q ∧
      q.counter.working = 0 ∧ q.counter.short_break = 0 ∧
      q.counter.long_break = 0 ∧
      q.working = Timer.new 1 1 ∧ q.short_break = Timer.new 1 1 ∧
      q.long_break = Timer.new 1 1 ∧
      q.paused = false ∧ q.is_consumed = true ∧ q.is_active = true :=
  claim_C10_zero_cap (Timer.new 1 1) (Timer.new 1 1) (Timer.new 1 1)
    2 true 1 (by decide)

set_option maxRecDepth 4000 in
/-- Claim C8 as stated is false on the code: the counters are `u8`
cells, so the 256th increment wraps 255 back to 0, a decrease.  The
256th `increment_working` yields a strictly smaller Working count than
the 255th. -/
theorem claim_C8_counterexample :
    (Nat.iterate Counter.increment_working 256 Counter.new).working <
      (Nat.iterate Counter.increment_working 255 Counter.new).working := by
  decide

/-- Claim C8 (amended): each increment call adds exactly one to its own
slot and leaves the other two slots unchanged — hence counts never
decrease — provided the slot is below the u8 maximum 255; at 255 the
increment wraps to 0. -/
theorem claim_C8_counter_increments (c : Counter)
    (hw : c.working < 255) (hs : c.short_break < 255) (hl : c.long_break < 255) :
    (c.increment_working.working = c.working + 1 ∧
      c.increment_working.short_break = c.short_break ∧
      c.increment_working.long_break = c.long_break) ∧
    (c.increment_short_break.short_break = c.short_break + 1 ∧
      c.increment_short_break.working = c.working ∧
      c.increment_short_break.long_break = c.long_break) ∧
    (c.increment_long_break.long_break = c.long_break + 1 ∧
      c.increment_long_break.working = c.working ∧
      c.increment_long_break.short_break = c.short_break) := by
  refine ⟨⟨?_, rfl, rfl⟩, ⟨?_, rfl, rfl⟩, ⟨?_, rfl, rfl⟩⟩
  · exact Nat.mod_eq_of_lt (by omega)
  · exact Nat.mod_eq_of_lt (by omega)
  · exact Nat.mod_eq_of_lt (by omega)

/-- Witness for the amended claim C8 at the zeroed counter. -/
theorem claim_C8_counter_increments_witness :
    Counter.new.working < 255 ∧
    Counter.new.increment_working.working = Counter.new.working + 1 :=
  ⟨by decide,
    ((claim_C8_counter_increments Counter.new (by decide) (by decide)
      (by decide)).1).1⟩

/-- Claim C6: a fresh machine has `paused = true`; `paused` is changed
only by the `resume` and `pause` operations (ticking and `next_cycle`
leave it untouched, `resume` clears it, `pause` sets it); and `run`
force-resumes first, so its result is independent of the pause value
the state held before the call and the loop always begins active. -/
theorem claim_C6_pause_discipline (w sb lb : Timer) (i : Nat) (c : Bool)
    (u : Option Nat) (p : Pomodoro) (n : Nat) :
    (Pomodoro.new w sb lb i c u).paused = true ∧
    p.proceed.paused = p.paused ∧
    (∀ q, p.next_cycle = some q → q.paused = p.paused) ∧
    p.resume.paused = false ∧
    p.pause.paused = true ∧
    Pomodoro.run n p.pause = Pomodoro.run n p ∧
    Pomodoro.run n p.resume = Pomodoro.run n p ∧
    p.resume.is_active = true := by
  refine ⟨rfl, ?_, ?_, rfl, rfl, rfl, rfl, rfl⟩
  · simp [Pomodoro.proceed]
  · intro q h
    obtain ⟨ns, hns, rfl⟩ := next_cycle_some_elim p q h
    simp [Pomodoro.reset_current_timer]

/-- Witness for claim C6 at a concrete machine. -/
theorem claim_C6_pause_discipline_witness :
    (Pomodoro.new (Timer.new 1 1) (Timer.new 1 1) (Timer.new 1 1)
        2 true none).paused = true ∧
    (Pomodoro.new (Timer.new 1 1) (Timer.new 1 1) (Timer.new 1 1)
        2 true none).resume.is_active = true := by
  have h := claim_C6_pause_discipline (Timer.new 1 1) (Timer.new 1 1)
    (Timer.new 1 1) 2 true none
    (Pomodoro.new (Timer.new 1 1) (Timer.new 1 1) (Timer.new 1 1) 2 true none) 0
  exact ⟨h.1, h.2.2.2.2.2.2.2⟩

/-! The advancing loop of an uncapped continuous machine never exits. -/

lemma next_cycle_fields (p q : Pomodoro) (h : p.next_cycle = some q) :
    q.untilCap = p.untilCap ∧ q.continuous = p.continuous ∧
    q.long_break_interval = p.long_break_interval ∧ q.paused = p.paused := by
  obtain ⟨ns, hns, rfl⟩ := next_cycle_some_elim p q h
  refine ⟨?_, ?_, ?_, ?_⟩ <;> simp [Pomodoro.reset_current_timer]

lemma runLoop_no_exit (fuel : Nat) :
    ∀ p : Pomodoro, p.untilCap = none → p.continuous = true →
      0 < p.long_break_interval → p.paused = false →
      Pomodoro.runLoop fuel p = none := by
  induction fuel with
  | zero => intro p _ _ _ _; rfl
  | succ n ih =>
      intro p hu hc hi hp
      have hcons : p.is_consumed = false := by
        simp [Pomodoro.is_consumed, hu]
      have hact : p.is_active = true := by
        simp [Pomodoro.is_active, hp]
      cases hd : p.current_timer.is_done with
      | false =>
          simp only [Pomodoro.runLoop, hcons, hact, hd, Bool.not_false,
            Bool.not_true, Bool.false_or, if_false, if_true]
          exact ih p.proceed (by simp [Pomodoro.proceed, hu])
            (by simp [Pomodoro.proceed, hc]) (by simp [Pomodoro.proceed]; exact hi)
            (by simp [Pomodoro.proceed, hp])
      | true =>
          obtain ⟨q, hq⟩ : ∃ q, p.next_cycle = some q :=
            ⟨_, next_cycle_eq_spec p hi⟩
          obtain ⟨hqu, hqc, hqi, hqp⟩ := next_cycle_fields p q hq
          simp only [Pomodoro.runLoop, hcons, hact, hd, Bool.not_true,
            Bool.false_or, if_false, hq]
          rw [hqc, hc]
          simp only [Bool.not_true, Bool.false_eq_true, if_false]
          exact ih q (hqu.trans hu) (hqc.trans hc)
            (by rw [hqi]; exact hi) (hqp.trans hp)

/-- Claim C9: for each signal the signal-consuming task receives, Pause
sets the shared pause flag to true, Resume sets it to false, and Abort
returns from the signal task's own loop only — the machine state comes
back untouched and the remaining signals are never consumed.  Nothing
stops the advancing loop: for an uncapped continuous configuration
`run` exits within no fuel bound at all. -/
theorem claim_C9_signal_semantics (sigs : List RSignal) (p : Pomodoro)
    (fuel : Nat) (hu : p.untilCap = none) (hc : p.continuous = true)
    (hi : 0 < p.long_break_interval) :
    signalTask (RSignal.Pause :: sigs) p = signalTask sigs p.pause ∧
    p.pause.paused = true ∧
    signalTask (RSignal.Resume :: sigs) p = signalTask sigs p.resume ∧
    p.resume.paused = false ∧
    signalTask (RSignal.Abort :: sigs) p = (p, sigs) ∧
    Pomodoro.run fuel p = none := by
  refine ⟨rfl, rfl, rfl, rfl, rfl, ?_⟩
  exact runLoop_no_exit fuel p.resume hu hc hi rfl

/-- Witness for claim C9: Abort leaves the fresh machine untouched and
consumes nothing further; the uncapped continuous machine's run loop is
still live after 5 iterations of fuel. -/
theorem claim_C9_signal_semantics_witness :
    signalTask [RSignal.Abort] (Pomodoro.new (Timer.new 1 1) (Timer.new 1 1)
        (Timer.new 1 1) 2 true none) =
      (Pomodoro.new (Timer.new 1 1) (Timer.new 1 1) (Timer.new 1 1)
        2 true none, []) ∧
    Pomodoro.run 5 (Pomodoro.new (Timer.new 1 1) (Timer.new 1 1)
        (Timer.new 1 1) 2 true none) = none := by
  have h := claim_C9_signal_semantics [] (Pomodoro.new (Timer.new 1 1)
    (Timer.new 1 1) (Timer.new 1 1) 2 true none) 5 rfl rfl (by decide)
  exact ⟨h.2.2.2.2.1, h.2.2.2.2.2⟩

end Pomo
